import Mathlib

/-!
Shallow embedding of the BKchanger Obsidian plugin (src/main.ts): a
scroll-driven background-changer.  Pure data is modelled directly; DOM
state (class lists, child elements of the active container) is modelled
as explicit state records; the JavaScript string builtins used by the
source (split, trim, toLowerCase, endsWith, JSON.stringify/parse) are
embedded as executable Lean functions over the character list underlying
a String.
-/

namespace BK

/-! ## JavaScript string builtins, embedded over List Char -/

/-- Splitting a character list at every occurrence of a separator
character; embeds the JavaScript `String.prototype.split` with a
single-character separator.  Always returns a nonempty list of pieces. -/
def splitListChar (sep : Char) : List Char → List (List Char)
  | [] => [[]]
  | c :: rest =>
    if c = sep then [] :: splitListChar sep rest
    else
      match splitListChar sep rest with
      | [] => [[c]]
      | h :: t => (c :: h) :: t

/-- Joining a list of character lists with a separator character;
embeds `Array.prototype.join` with a single-character separator. -/
def joinCharList (sep : Char) : List (List Char) → List Char
  | [] => []
  | [x] => x
  | x :: xs => x ++ sep :: joinCharList sep xs

/-- Whitespace characters removed by `String.prototype.trim` (the
characters relevant to this plugin's inputs). -/
def isJsWs (c : Char) : Bool :=
  c = ' ' || c = '\t' || c = '\n' || c = '\r' || c = '\x0b' || c = '\x0c' || c = '\xa0'

/-- Both-ends whitespace trimming on a character list; embeds
`String.prototype.trim`. -/
def trimL (l : List Char) : List Char :=
  ((l.dropWhile isJsWs).reverse.dropWhile isJsWs).reverse

/-- Embeds `String.prototype.trim`. -/
def jsTrim (s : String) : String := ⟨trimL s.data⟩

/-- Embeds `String.prototype.toLowerCase` (ASCII range, which covers
every key the parser recognizes). -/
def jsToLower (s : String) : String := ⟨s.data.map Char.toLower⟩

/-- Embeds `String.prototype.split` with a one-character separator. -/
def jsSplitChar (sep : Char) (s : String) : List String :=
  (splitListChar sep s.data).map (fun l => ⟨l⟩)

/-- Embeds `Array.prototype.join` over strings with a one-character
separator. -/
def jsJoin (sep : Char) (l : List String) : String :=
  ⟨joinCharList sep (l.map (fun s => s.data))⟩

/-- Embeds `String.prototype.endsWith`. -/
def jsEndsWith (s suffix : String) : Bool :=
  List.isSuffixOf suffix.data s.data

/-! ## Style catalog (STYLE_DEFINITIONS and StyleManager, main.ts lines 9-51) -/

/-- The closed set of style identifiers, the keys of STYLE_DEFINITIONS. -/
inductive StyleMode where
  | glass | frost | mist | crisp | card | float | zen | off
deriving DecidableEq

/-- The key string of a style identifier, as it appears in
STYLE_DEFINITIONS. -/
def styleKey : StyleMode → String
  | .glass => "glass"
  | .frost => "frost"
  | .mist => "mist"
  | .crisp => "crisp"
  | .card => "card"
  | .float => "float"
  | .zen => "zen"
  | .off => "off"

/-- The display label of a style identifier (values of
STYLE_DEFINITIONS). -/
def styleLabel : StyleMode → String
  | .glass => "Glass (Standard Blur)"
  | .frost => "Frost (Heavy Blur - Icy Look)"
  | .mist => "Mist (Light Blur - Steamy)"
  | .crisp => "Crisp (No Blur - Darker)"
  | .card => "Card (Solid - High Contrast)"
  | .float => "Float (Transparent)"
  | .zen => "Zen (Ultra Low Blur - Focus)"
  | .off => "Off (Disable Plugin)"

/-- Recognizing a raw string as a style key; the `value in
STYLE_DEFINITIONS` membership test underlying StyleManager.isValid,
returning which key it is. -/
def strToStyle : String → Option StyleMode
  | "glass" => some .glass
  | "frost" => some .frost
  | "mist" => some .mist
  | "crisp" => some .crisp
  | "card" => some .card
  | "float" => some .float
  | "zen" => some .zen
  | "off" => some .off
  | _ => none

namespace StyleManager

/-- StyleManager.keys: all style keys in declaration order. -/
def keys : List StyleMode :=
  [.glass, .frost, .mist, .crisp, .card, .float, .zen, .off]

/-- The runtime computation performed by the template literal
`bg-style-${mode}` for an arbitrary string (at runtime the TypeScript
StyleMode type is erased, so any string can flow in). -/
def getClassStr (mode : String) : String := "bg-style-" ++ mode

/-- StyleManager.getClass: the CSS class derived from a style
identifier. -/
def getClass (mode : StyleMode) : String := getClassStr (styleKey mode)

/-- StyleManager.cssClasses: all derived CSS class names. -/
def cssClasses : List String := keys.map getClass

/-- StyleManager.isValid: the type-guard on raw strings. -/
def isValid (value : String) : Bool := (strToStyle value).isSome

/-- StyleManager.getLabel. -/
def getLabel (mode : StyleMode) : String := styleLabel mode

end StyleManager

/-! ## Settings records (main.ts lines 57-73) -/

/-- PluginSettings as it exists at runtime: the styleMode field holds
whatever string the settings store supplied (the TypeScript annotation
StyleMode is erased at runtime). -/
structure PluginSettings where
  styleMode : String
deriving DecidableEq

/-- DEFAULT_SETTINGS. -/
def DEFAULT_SETTINGS : PluginSettings := { styleMode := "glass" }

/-- BgSettings: the normalized configuration of one bg block. -/
structure BgSettings where
  path : String
  blur : String
  opacity : String
  size : String
  position : String
  «repeat» : String
  style : Option StyleMode
deriving DecidableEq

/-- The data possibly returned by the host settings store (loadData):
either nothing, or an object that may or may not carry a styleMode
field, holding a raw string. -/
structure StoredData where
  styleMode : Option String
deriving DecidableEq

/-- loadSettings (main.ts lines 148-150):
`Object.assign({}, DEFAULT_SETTINGS, await this.loadData())`.  A stored
styleMode field overwrites the default verbatim; otherwise the default
"glass" remains. -/
def loadSettings (stored : Option StoredData) : PluginSettings :=
  { styleMode := ((stored.bind StoredData.styleMode).getD DEFAULT_SETTINGS.styleMode) }

/-! ## Block parser (parseSettings, main.ts lines 166-195) -/

/-- The default BgSettings record built at the top of parseSettings. -/
def defaultBg : BgSettings :=
  { path := "", blur := "0px", opacity := "1", size := "cover",
    position := "center center", «repeat» := "no-repeat", style := none }

/-- The blur coercion of the `case 'blur'` branch:
`value.endsWith('px') || value.endsWith('rem') || value === '0' ? value : value + 'px'`. -/
def coerceBlur (value : String) : String :=
  if jsEndsWith value "px" || jsEndsWith value "rem" || value == "0" then value
  else value ++ "px"

/-- One iteration of the for-loop in parseSettings: handle a single
line.  The resolution of a path value against the vault is the external
collaborator getImgPath, supplied as the `resolve` parameter;
`this.getImgPath(value, sourcePath) || ''` maps an unresolved path to
the empty string. -/
def parseLine (resolve : String → String → Option String) (sourcePath : String)
    (st : BgSettings) (line : List Char) : BgSettings :=
  let parts := splitListChar ':' line
  if parts.length < 2 then st
  else
    let key := jsToLower (jsTrim ⟨parts.headD []⟩)
    let value := jsTrim (jsJoin ':' ((parts.drop 1).map (fun l => ⟨l⟩)))
    match key with
    | "path" => { st with path := (resolve value sourcePath).getD "" }
    | "blur" => { st with blur := coerceBlur value }
    | "opacity" => { st with opacity := value }
    | "size" => { st with size := value }
    | "position" => { st with position := value }
    | "repeat" => { st with «repeat» := value }
    | "style" =>
      match strToStyle value with
      | some m => { st with style := some m }
      | none => st
    | _ => st

/-- parseSettings: split the source text into lines and fold the
per-line handler over the defaults. -/
def parseSettings (resolve : String → String → Option String)
    (source sourcePath : String) : BgSettings :=
  (splitListChar '\n' source.data).foldl (parseLine resolve sourcePath) defaultBg

/-! ## DOM model: the active container's class list and children -/

/-- The inline style properties set on the background layer element. -/
structure LayerStyle where
  backgroundImage : String
  backgroundSize : String
  backgroundPosition : String
  backgroundRepeat : String
  opacity : String
  filter : String
  transition : String
deriving DecidableEq

/-- A child node of the container: either the custom background layer
div (class custom-bg-layer), or any other content node. -/
inductive Node where
  | layer (st : LayerStyle)
  | other (id : Nat)
deriving DecidableEq

/-- The DOM state of a view container that the plugin mutates: its
class list (in DOMTokenList order) and its ordered children. -/
structure Container where
  classes : List String
  children : List Node
deriving DecidableEq

/-- classList.add: appends the token when absent, no-op when present. -/
def addClass (l : List String) (c : String) : List String :=
  if c ∈ l then l else l ++ [c]

/-- classList.remove(...tokens): every occurrence of every given token
is removed. -/
def removeClasses (l : List String) (cs : List String) : List String :=
  l.filter (fun s => !cs.contains s)

/-- Whether the children contain a custom-bg-layer element
(querySelector finds one). -/
def hasLayer : List Node → Bool
  | [] => false
  | .layer _ :: _ => true
  | .other _ :: t => hasLayer t

/-- Setting the inline styles of the first custom-bg-layer element (the
one querySelector returns) to the given values, leaving its position
among the children unchanged. -/
def setFirstLayer (v : LayerStyle) : List Node → List Node
  | [] => []
  | .layer _ :: t => .layer v :: t
  | .other i :: t => .other i :: setFirstLayer v t

/-- element.remove() on the first custom-bg-layer element found. -/
def removeFirstLayer : List Node → List Node
  | [] => []
  | .layer _ :: t => t
  | .other i :: t => .other i :: removeFirstLayer t

/-- Number of custom-bg-layer elements among the children. -/
def countLayers : List Node → Nat
  | [] => 0
  | .layer _ :: t => countLayers t + 1
  | .other _ :: t => countLayers t

/-- The inline style values written onto the layer by
applySettingsToActiveLeaf (main.ts lines 227-233); every property of
the layer is assigned, so the result does not depend on the layer's
previous state. -/
def mkLayerStyle (s : BgSettings) : LayerStyle :=
  { backgroundImage := "url('" ++ s.path ++ "')",
    backgroundSize := s.size,
    backgroundPosition := s.position,
    backgroundRepeat := s.«repeat»,
    opacity := s.opacity,
    filter := "blur(" ++ s.blur ++ ")",
    transition := "all 0.5s ease-in-out" }

/-- applySettingsToActiveLeaf (main.ts lines 203-234), as the mutation
performed on the active view's content container when one exists
(when there is no active leaf the function returns without touching
anything).  `globalMode` is this.settings.styleMode as it exists at
runtime (a raw string). -/
def applySettingsToActiveLeaf (settings : BgSettings) (globalMode : String)
    (c : Container) : Container :=
  let cls1 := addClass c.classes "has-custom-bg"
  let cls2 := removeClasses cls1 StyleManager.cssClasses
  let effectiveStyle := match settings.style with
    | some m => styleKey m
    | none => globalMode
  let cls3 := addClass cls2 (StyleManager.getClassStr effectiveStyle)
  let children :=
    if hasLayer c.children then setFirstLayer (mkLayerStyle settings) c.children
    else Node.layer (mkLayerStyle settings) :: c.children
  { classes := cls3, children := children }

/-- resetBackground (main.ts lines 236-247), as the mutation on the
given leaf's container when one exists. -/
def resetBackground (c : Container) : Container :=
  { classes := removeClasses (removeClasses c.classes ["has-custom-bg"]) StyleManager.cssClasses,
    children := removeFirstLayer c.children }

/-- updateStyleClass (main.ts lines 157-162), as the mutation on
document.body's class list. -/
def updateStyleClass (bodyClasses : List String) (styleMode : String) : List String :=
  addClass (removeClasses bodyClasses StyleManager.cssClasses)
    (StyleManager.getClassStr styleMode)

/-! ## JSON serialization (JSON.stringify on the marker dataset, and
JSON.parse in the intersection callback) -/

/-- Hex digit character used by the \u00XX escapes of JSON.stringify
(lowercase). -/
def hexDig (n : Nat) : Char :=
  Char.ofNat (if n < 10 then 48 + n else 87 + n)

/-- Value of a hex digit character accepted by JSON.parse. -/
def hexVal (c : Char) : Option Nat :=
  if '0' ≤ c ∧ c ≤ '9' then some (c.toNat - 48)
  else if 'a' ≤ c ∧ c ≤ 'f' then some (c.toNat - 87)
  else if 'A' ≤ c ∧ c ≤ 'F' then some (c.toNat - 55)
  else none

/-- The escape sequence JSON.stringify emits for one character of a
string value. -/
def escChar (c : Char) : List Char :=
  if c = '"' then ['\\', '"']
  else if c = '\\' then ['\\', '\\']
  else if c = '\x08' then ['\\', 'b']
  else if c = '\x0c' then ['\\', 'f']
  else if c = '\n' then ['\\', 'n']
  else if c = '\r' then ['\\', 'r']
  else if c = '\t' then ['\\', 't']
  else if c.toNat < 32 then
    ['\\', 'u', '0', '0', hexDig (c.toNat / 16), hexDig (c.toNat % 16)]
  else [c]

/-- JSON string-body escaping, character by character. -/
def escJ : List Char → List Char
  | [] => []
  | c :: r => escChar c ++ escJ r

/-- A quoted JSON string literal. -/
def strLit (s : String) : List Char := '"' :: escJ s.data ++ ['"']

/-- Prepend a character inside an Option-carried partial parse. -/
def consOpt (c : Char) (o : Option (List Char × List Char)) :
    Option (List Char × List Char) :=
  o.map (fun p => (c :: p.1, p.2))

/-- JSON.parse string-body scanner: consumes characters up to the
closing quote, undoing the escapes; returns the decoded body and the
remaining input.  Rejects raw control characters and malformed escapes
exactly as JSON.parse does. -/
def unesc : List Char → Option (List Char × List Char)
  | [] => none
  | c :: rest =>
    if c = '"' then some ([], rest)
    else if c = '\\' then
      match rest with
      | [] => none
      | e :: r =>
        if e = 'u' then
          match r with
          | h1 :: h2 :: h3 :: h4 :: r2 =>
            match hexVal h1, hexVal h2, hexVal h3, hexVal h4 with
            | some a, some b, some c2, some d =>
              consOpt (Char.ofNat (((a * 16 + b) * 16 + c2) * 16 + d)) (unesc r2)
            | _, _, _, _ => none
          | _ => none
        else if e = '"' then consOpt '"' (unesc r)
        else if e = '\\' then consOpt '\\' (unesc r)
        else if e = '/' then consOpt '/' (unesc r)
        else if e = 'b' then consOpt '\x08' (unesc r)
        else if e = 'f' then consOpt '\x0c' (unesc r)
        else if e = 'n' then consOpt '\n' (unesc r)
        else if e = 'r' then consOpt '\r' (unesc r)
        else if e = 't' then consOpt '\t' (unesc r)
        else none
    else if c.toNat < 32 then none
    else consOpt c (unesc rest)

/-- Expect an exact character sequence at the head of the input. -/
def expectChars : List Char → List Char → Option (List Char)
  | [], l => some l
  | c :: cs, d :: l => if c = d then expectChars cs l else none
  | _ :: _, [] => none

/-- The exact character sequence JSON.stringify produces for a
BgSettings object: keys in insertion order (path, blur, opacity, size,
position, repeat, then style when the optional field is set), no
whitespace. -/
def objChars (s : BgSettings) : List Char :=
  '{' :: (strLit "path" ++ ':' :: strLit s.path ++
  (',' :: (strLit "blur" ++ ':' :: strLit s.blur ++
  (',' :: (strLit "opacity" ++ ':' :: strLit s.opacity ++
  (',' :: (strLit "size" ++ ':' :: strLit s.size ++
  (',' :: (strLit "position" ++ ':' :: strLit s.position ++
  (',' :: (strLit "repeat" ++ ':' :: strLit s.«repeat» ++
  (match s.style with
   | none => ['}']
   | some m => ',' :: (strLit "style" ++ ':' :: strLit (styleKey m) ++ ['}'])))))))))))))

/-- JSON.stringify(settings), the string stored on the marker's
dataset. -/
def stringifyBg (s : BgSettings) : String := ⟨objChars s⟩

/-- Parse one `"key":"value"` pair whose key is the given literal. -/
def parseKV (key : String) (l : List Char) : Option (String × List Char) :=
  match expectChars (strLit key ++ [':', '"']) l with
  | none => none
  | some l2 => (unesc l2).map (fun p => (⟨p.1⟩, p.2))

/-- JSON.parse on the marker dataset, specialized to the object shape
JSON.stringify emits for a BgSettings (the only strings the plugin ever
stores there); any other input is rejected.  A parsed style key is
mapped back into the closed StyleMode set it was serialized from. -/
def parseBgJson (s : String) : Option BgSettings :=
  match expectChars ['{'] s.data with
  | none => none
  | some l0 =>
    match parseKV "path" l0 with
    | none => none
    | some (path, l1) =>
      match expectChars [','] l1 with
      | none => none
      | some l1b =>
        match parseKV "blur" l1b with
        | none => none
        | some (blur, l2) =>
          match expectChars [','] l2 with
          | none => none
          | some l2b =>
            match parseKV "opacity" l2b with
            | none => none
            | some (opacity, l3) =>
              match expectChars [','] l3 with
              | none => none
              | some l3b =>
                match parseKV "size" l3b with
                | none => none
                | some (size, l4) =>
                  match expectChars [','] l4 with
                  | none => none
                  | some l4b =>
                    match parseKV "position" l4b with
                    | none => none
                    | some (position, l5) =>
                      match expectChars [','] l5 with
                      | none => none
                      | some l5b =>
                        match parseKV "repeat" l5b with
                        | none => none
                        | some (rep, l6) =>
                          match l6 with
                          | '}' :: rest =>
                            if rest.isEmpty then
                              some { path := path, blur := blur, opacity := opacity,
                                     size := size, position := position,
                                     «repeat» := rep, style := none }
                            else none
                          | ',' :: l7 =>
                            match parseKV "style" l7 with
                            | none => none
                            | some (sty, l8) =>
                              match expectChars ['}'] l8 with
                              | none => none
                              | some l9 =>
                                if l9.isEmpty then
                                  match strToStyle sty with
                                  | some m =>
                                    some { path := path, blur := blur,
                                           opacity := opacity, size := size,
                                           position := position, «repeat» := rep,
                                           style := some m }
                                  | none => none
                                else none
                          | _ => none

/-! ## Code-block processor (registerMarkdownCodeBlockProcessor callback,
main.ts lines 105-125) -/

/-- What the bg code-block callback renders for one block: the dataset
string placed on the created marker (none when no marker is created),
the info annotation text, the optional blur sub-line, the inline error
annotation text, and whether the marker was registered with the
IntersectionObserver. -/
structure RenderResult where
  markerDataset : Option String
  infoText : Option String
  blurSub : Option String
  errorText : Option String
  observed : Bool
deriving DecidableEq

/-- The raw file name shown in the info annotation:
`settings.path.split('/').pop() || ''`. -/
def rawNameOf (path : String) : String :=
  (jsSplitChar '/' path).getLastD ""

/-- The cleaned file name: `rawName.split('?')[0]`. -/
def cleanNameOf (path : String) : String :=
  (jsSplitChar '?' (rawNameOf path)).headD ""

/-- The bg code-block callback: parse the source; when the parsed path
is non-empty (truthy), create the marker with the serialized settings,
render the info annotation (with a blur sub-line when the blur string
differs from the literal "0px"), and observe the marker; otherwise
render the inline error annotation only. -/
def processBgBlock (resolve : String → String → Option String)
    (source sourcePath : String) : RenderResult :=
  let settings := parseSettings resolve source sourcePath
  if settings.path ≠ "" then
    { markerDataset := some (stringifyBg settings),
      infoText := some ("🖼 " ++ cleanNameOf settings.path),
      blurSub :=
        if settings.blur ≠ "0px" then some ("💧 Blur: " ++ settings.blur) else none,
      errorText := none,
      observed := true }
  else
    { markerDataset := none, infoText := none, blurSub := none,
      errorText := some "❌ No \"path:\" found in bg block",
      observed := false }

/-! ## IntersectionObserver callback (main.ts lines 93-102) -/

/-- One entry of an intersection-notification batch: whether the target
marker is intersecting, and the marker's dataset.settings attribute. -/
structure OEntry where
  isIntersecting : Bool
  settings : Option String
deriving DecidableEq

/-- The observer callback's selection: `entries.find(e =>
e.isIntersecting)`, then JSON.parse of that entry's dataset when
present; returns the configuration to apply, or none when no apply is
triggered. -/
def observerCallback (entries : List OEntry) : Option BgSettings :=
  match entries.find? (fun e => e.isIntersecting) with
  | none => none
  | some e =>
    match e.settings with
    | none => none
    | some j => parseBgJson j

/-- The effect of one intersection-notification batch on the active
container: apply the selected configuration, or leave the container
unchanged when none is selected. -/
def observerStep (globalMode : String) (c : Container) (entries : List OEntry) :
    Container :=
  match observerCallback entries with
  | some cfg => applySettingsToActiveLeaf cfg globalMode c
  | none => c

/-! ## Operation sequences over one container (for the layer invariant) -/

/-- The two container-mutating operations of the plugin. -/
inductive Op where
  | applyOp (cfg : BgSettings) (globalMode : String)
  | resetOp
deriving DecidableEq

/-- Execute one operation on a container. -/
def stepOp (c : Container) : Op → Container
  | .applyOp cfg g => applySettingsToActiveLeaf cfg g c
  | .resetOp => resetBackground c

/-! ## Spec-side definitions (for refinement comparison only) -/

/-- Modelled from the spec: a blur value that is written as zero in any
of the supported unit forms ("a blur of zero, however written"). -/
def specBlurIsZero (s : String) : Bool :=
  s == "0" || s == "0px" || s == "0rem"

/-! ## Helper lemmas: class lists -/

theorem mem_addClass {l : List String} {c x : String} :
    x ∈ addClass l c ↔ x ∈ l ∨ x = c := by
  unfold addClass
  split
  · constructor
    · exact fun h => Or.inl h
    · rintro (h | rfl) <;> assumption
  · simp [List.mem_append]

theorem addClass_of_mem {l : List String} {c : String} (h : c ∈ l) :
    addClass l c = l := by
  simp [addClass, h]

theorem addClass_of_not_mem {l : List String} {c : String} (h : c ∉ l) :
    addClass l c = l ++ [c] := by
  simp [addClass, h]

theorem mem_removeClasses {l cs : List String} {x : String} :
    x ∈ removeClasses l cs ↔ x ∈ l ∧ cs.contains x = false := by
  simp [removeClasses, List.mem_filter]

theorem removeClasses_append (a b cs : List String) :
    removeClasses (a ++ b) cs = removeClasses a cs ++ removeClasses b cs := by
  simp [removeClasses, List.filter_append]

theorem removeClasses_removeClasses (l cs : List String) :
    removeClasses (removeClasses l cs) cs = removeClasses l cs := by
  simp [removeClasses, List.filter_filter]

theorem filter_contains_removeClasses (l cs : List String) :
    (removeClasses l cs).filter (fun s => cs.contains s) = [] := by
  simp [removeClasses, List.filter_filter]

theorem getClass_mem_cssClasses (m : StyleMode) :
    StyleManager.getClass m ∈ StyleManager.cssClasses := by
  cases m <;> decide

theorem contains_getClass (m : StyleMode) :
    StyleManager.cssClasses.contains (StyleManager.getClass m) = true := by
  cases m <;> decide

theorem hcb_not_contains : StyleManager.cssClasses.contains "has-custom-bg" = false := by
  decide

/-! ## Helper lemmas: layer children -/

theorem hasLayer_setFirstLayer (v : LayerStyle) (l : List Node) :
    hasLayer (setFirstLayer v l) = hasLayer l := by
  induction l with
  | nil => rfl
  | cons n t ih => cases n <;> simp [setFirstLayer, hasLayer, ih]

theorem setFirstLayer_setFirstLayer (v : LayerStyle) (l : List Node) :
    setFirstLayer v (setFirstLayer v l) = setFirstLayer v l := by
  induction l with
  | nil => rfl
  | cons n t ih => cases n <;> simp [setFirstLayer, ih]

theorem countLayers_setFirstLayer (v : LayerStyle) (l : List Node) :
    countLayers (setFirstLayer v l) = countLayers l := by
  induction l with
  | nil => rfl
  | cons n t ih => cases n <;> simp [setFirstLayer, countLayers, ih]

theorem countLayers_removeFirstLayer_le (l : List Node) :
    countLayers (removeFirstLayer l) ≤ countLayers l := by
  induction l with
  | nil => exact Nat.le_refl _
  | cons n t ih =>
    cases n with
    | layer st => simp [removeFirstLayer, countLayers]
    | other i => simpa [removeFirstLayer, countLayers] using ih

theorem countLayers_eq_zero_of_not_hasLayer {l : List Node}
    (h : hasLayer l = false) : countLayers l = 0 := by
  induction l with
  | nil => rfl
  | cons n t ih =>
    cases n with
    | layer st => simp [hasLayer] at h
    | other i => simp [hasLayer] at h; simp [countLayers, ih h]

/-! ## Helper lemmas: the apply operation -/

theorem effectiveStyle_getD (cfg : BgSettings) (gm : StyleMode) :
    (match cfg.style with
     | some m => styleKey m
     | none => styleKey gm) = styleKey (cfg.style.getD gm) := by
  cases cfg.style <;> rfl

theorem apply_classes_catalog (cfg : BgSettings) (gm : StyleMode) (c : Container) :
    (applySettingsToActiveLeaf cfg (styleKey gm) c).classes
      = removeClasses (addClass c.classes "has-custom-bg") StyleManager.cssClasses
        ++ [StyleManager.getClass (cfg.style.getD gm)] := by
  unfold applySettingsToActiveLeaf
  simp only [effectiveStyle_getD]
  apply addClass_of_not_mem
  intro hmem
  have := (mem_removeClasses.mp hmem).2
  rw [show StyleManager.getClassStr (styleKey (cfg.style.getD gm))
        = StyleManager.getClass (cfg.style.getD gm) from rfl] at this
  rw [contains_getClass] at this
  exact Bool.true_eq_false.mp this

theorem apply_children (cfg : BgSettings) (g : String) (c : Container) :
    (applySettingsToActiveLeaf cfg g c).children
      = (if hasLayer c.children then setFirstLayer (mkLayerStyle cfg) c.children
         else Node.layer (mkLayerStyle cfg) :: c.children) := rfl

theorem hasLayer_apply (cfg : BgSettings) (g : String) (c : Container) :
    hasLayer (applySettingsToActiveLeaf cfg g c).children = true := by
  rw [apply_children]
  split
  · rw [hasLayer_setFirstLayer]; assumption
  · rfl

theorem catalogFilter_apply (cfg : BgSettings) (gm : StyleMode) (c : Container) :
    ((applySettingsToActiveLeaf cfg (styleKey gm) c).classes).filter
        (fun s => StyleManager.cssClasses.contains s)
      = [StyleManager.getClass (cfg.style.getD gm)] := by
  rw [apply_classes_catalog, List.filter_append, filter_contains_removeClasses]
  simp only [List.nil_append, List.filter_cons, List.filter_nil]
  rw [contains_getClass]
  simp

theorem container_eq_of_fields {a b : Container}
    (h1 : a.classes = b.classes) (h2 : a.children = b.children) : a = b := by
  cases a; cases b; cases h1; cases h2; rfl

theorem removeClasses_singleton_of_contains {x : String} {cs : List String}
    (h : cs.contains x = true) : removeClasses [x] cs = [] := by
  simp only [removeClasses, List.filter_cons, List.filter_nil]
  rw [h]
  rfl

theorem apply_apply_classes (cfg : BgSettings) (gm : StyleMode) (c : Container) :
    (applySettingsToActiveLeaf cfg (styleKey gm)
        (applySettingsToActiveLeaf cfg (styleKey gm) c)).classes
      = (applySettingsToActiveLeaf cfg (styleKey gm) c).classes := by
  rw [apply_classes_catalog, apply_classes_catalog]
  have hm : ("has-custom-bg" : String) ∈
      removeClasses (addClass c.classes "has-custom-bg") StyleManager.cssClasses := by
    exact mem_removeClasses.mpr ⟨mem_addClass.mpr (Or.inr rfl), hcb_not_contains⟩
  rw [addClass_of_mem (List.mem_append_left _ hm)]
  rw [removeClasses_append, removeClasses_removeClasses,
    removeClasses_singleton_of_contains (contains_getClass _), List.append_nil]

theorem apply_apply_children (cfg : BgSettings) (g : String) (c : Container) :
    (applySettingsToActiveLeaf cfg g (applySettingsToActiveLeaf cfg g c)).children
      = (applySettingsToActiveLeaf cfg g c).children := by
  rw [apply_children (c := applySettingsToActiveLeaf cfg g c), hasLayer_apply,
    if_pos rfl, apply_children]
  split
  · exact setFirstLayer_setFirstLayer _ _
  · rfl

theorem stepOp_layer_invariant {c : Container} (op : Op)
    (h : countLayers c.children ≤ 1) : countLayers (stepOp c op).children ≤ 1 := by
  cases op with
  | applyOp cfg g =>
    simp only [stepOp]
    rw [apply_children]
    split
    · rw [countLayers_setFirstLayer]; exact h
    · next hnot =>
      rw [countLayers,
        countLayers_eq_zero_of_not_hasLayer (Bool.of_not_eq_true hnot)]
  | resetOp =>
    exact Nat.le_trans (countLayers_removeFirstLayer_le _) h

theorem foldl_stepOp_layer_invariant (ops : List Op) {c : Container}
    (h : countLayers c.children ≤ 1) :
    countLayers ((ops.foldl stepOp c)).children ≤ 1 := by
  induction ops generalizing c with
  | nil => exact h
  | cons op t ih => exact ih (stepOp_layer_invariant op h)

/-! ## Helper lemmas: split, join, trim -/

theorem splitListChar_ne_nil (sep : Char) (l : List Char) :
    splitListChar sep l ≠ [] := by
  induction l with
  | nil => simp [splitListChar]
  | cons c t ih =>
    unfold splitListChar
    split
    · simp
    · split
      · simp
      · simp

theorem splitListChar_of_not_mem {sep : Char} {l : List Char} (h : sep ∉ l) :
    splitListChar sep l = [l] := by
  induction l with
  | nil => rfl
  | cons c t ih =>
    have hc : c ≠ sep := fun he => h (he ▸ List.mem_cons_self c t)
    have ht : sep ∉ t := fun hm => h (List.mem_cons_of_mem c hm)
    unfold splitListChar
    rw [if_neg hc, ih ht]

theorem splitListChar_append {sep : Char} {a : List Char} (b : List Char)
    (h : sep ∉ a) :
    splitListChar sep (a ++ sep :: b) = a :: splitListChar sep b := by
  induction a with
  | nil => simp [splitListChar]
  | cons c t ih =>
    have hc : c ≠ sep := fun he => h (he ▸ List.mem_cons_self c t)
    have ht : sep ∉ t := fun hm => h (List.mem_cons_of_mem c hm)
    simp only [List.cons_append, splitListChar, List.append_eq]
    rw [if_neg hc, ih ht]

theorem joinCharList_cons (sep : Char) (a : List Char) {s : List (List Char)}
    (h : s ≠ []) : joinCharList sep (a :: s) = a ++ sep :: joinCharList sep s := by
  cases s with
  | nil => exact absurd rfl h
  | cons x xs => rfl

theorem joinCharList_splitListChar (sep : Char) (l : List Char) :
    joinCharList sep (splitListChar sep l) = l := by
  induction l with
  | nil => rfl
  | cons c t ih =>
    unfold splitListChar
    split
    · next hc =>
      rw [joinCharList_cons sep [] (splitListChar_ne_nil sep t), ih, hc]
      rfl
    · next hc =>
      cases hs : splitListChar sep t with
      | nil => exact absurd hs (splitListChar_ne_nil sep t)
      | cons x xs =>
        simp only [hs]
        cases xs with
        | nil =>
          rw [hs, joinCharList] at ih
          simp [joinCharList, ih]
        | cons y ys =>
          rw [hs] at ih
          rw [joinCharList_cons sep x (by simp)] at ih
          rw [joinCharList_cons sep (c :: x) (by simp)]
          simp [ih]

theorem trimL_cons_ws {c : Char} (l : List Char) (h : isJsWs c = true) :
    trimL (c :: l) = trimL l := by
  simp [trimL, List.dropWhile_cons, h]

/-! ## Helper lemmas: the blur line of the parser -/

theorem data_mk (l : List Char) : (String.mk l).data = l := rfl

theorem mk_data (s : String) : String.mk s.data = s := rfl

theorem parseLine_blur (resolve : String → String → Option String)
    (sp : String) (st : BgSettings) (v : String) :
    parseLine resolve sp st ("blur: ".data ++ v.data)
      = { st with blur := coerceBlur (jsTrim v) } := by
  have hsplit : splitListChar ':' ("blur: ".data ++ v.data)
      = "blur".data :: splitListChar ':' (' ' :: v.data) := by
    have : ("blur: ".data ++ v.data) = "blur".data ++ ':' :: (' ' :: v.data) := rfl
    rw [this]
    exact splitListChar_append _ (by decide)
  unfold parseLine
  rw [hsplit]
  have hlen : ¬ (("blur".data :: splitListChar ':' (' ' :: v.data)).length < 2) := by
    cases hs : splitListChar ':' (' ' :: v.data) with
    | nil => exact absurd hs (splitListChar_ne_nil _ _)
    | cons x xs => simp [List.length_cons]
  rw [if_neg hlen]
  have hkey : jsToLower (jsTrim ⟨("blur".data :: splitListChar ':' (' ' :: v.data)).headD []⟩)
      = "blur" := by rfl
  rw [hkey]
  have hval : jsTrim (jsJoin ':'
      ((("blur".data :: splitListChar ':' (' ' :: v.data)).drop 1).map
        (fun l => (⟨l⟩ : String)))) = jsTrim v := by
    simp only [List.drop_succ_cons, List.drop_zero]
    unfold jsJoin
    rw [List.map_map]
    have : (fun s => String.data s) ∘ (fun l => (⟨l⟩ : String)) = id := by
      funext l; rfl
    rw [this, List.map_id, joinCharList_splitListChar]
    show jsTrim ⟨' ' :: v.data⟩ = jsTrim v
    unfold jsTrim
    rw [data_mk, trimL_cons_ws v.data (by decide)]
  rw [hval]
  rfl

theorem parseSettings_blur (resolve : String → String → Option String)
    (sp v : String) (hv : '\n' ∉ v.data) :
    (parseSettings resolve ("blur: " ++ v) sp).blur = coerceBlur (jsTrim v) := by
  unfold parseSettings
  rw [String.data_append]
  have hnl : '\n' ∉ ("blur: ".data ++ v.data) := by
    intro hm
    rcases List.mem_append.mp hm with h | h
    · revert h; decide
    · exact hv h
  rw [splitListChar_of_not_mem hnl]
  show (parseLine resolve sp defaultBg ("blur: ".data ++ v.data)).blur = _
  rw [parseLine_blur]

/-! ## Helper lemmas: JSON roundtrip -/

theorem expectChars_append (p r : List Char) : expectChars p (p ++ r) = some r := by
  induction p with
  | nil => rfl
  | cons c cs ih => simp [expectChars, ih]

theorem expectChars_single (c : Char) (t : List Char) :
    expectChars [c] (c :: t) = some t := by
  simp [expectChars, expectChars.eq_1]

theorem hexVal_hexDig {n : Nat} (h : n < 16) : hexVal (hexDig n) = some n := by
  interval_cases n <;> decide

theorem unesc_quote (rest : List Char) : unesc ('"' :: rest) = some ([], rest) := by
  rw [unesc.eq_def]; simp

theorem unesc_esc_quote (r : List Char) :
    unesc ('\\' :: '"' :: r) = consOpt '"' (unesc r) := by
  rw [unesc.eq_def]; simp

theorem unesc_esc_bs (r : List Char) :
    unesc ('\\' :: '\\' :: r) = consOpt '\\' (unesc r) := by
  rw [unesc.eq_def]; simp

theorem unesc_esc_b (r : List Char) :
    unesc ('\\' :: 'b' :: r) = consOpt '\x08' (unesc r) := by
  rw [unesc.eq_def]; simp

theorem unesc_esc_f (r : List Char) :
    unesc ('\\' :: 'f' :: r) = consOpt '\x0c' (unesc r) := by
  rw [unesc.eq_def]; simp

theorem unesc_esc_n (r : List Char) :
    unesc ('\\' :: 'n' :: r) = consOpt '\n' (unesc r) := by
  rw [unesc.eq_def]; simp

theorem unesc_esc_r (r : List Char) :
    unesc ('\\' :: 'r' :: r) = consOpt '\r' (unesc r) := by
  rw [unesc.eq_def]; simp

theorem unesc_esc_t (r : List Char) :
    unesc ('\\' :: 't' :: r) = consOpt '\t' (unesc r) := by
  rw [unesc.eq_def]; simp

theorem unesc_esc_u (h1 h2 h3 h4 : Char) (r2 : List Char) :
    unesc ('\\' :: 'u' :: h1 :: h2 :: h3 :: h4 :: r2)
      = (match hexVal h1, hexVal h2, hexVal h3, hexVal h4 with
         | some a, some b, some c2, some d =>
           consOpt (Char.ofNat (((a * 16 + b) * 16 + c2) * 16 + d)) (unesc r2)
         | _, _, _, _ => none) := by
  rw [unesc.eq_def]; simp

theorem unesc_ord (c : Char) (rest : List Char) (h1 : ¬ c = '"') (h2 : ¬ c = '\\')
    (h8 : ¬ c.toNat < 32) : unesc (c :: rest) = consOpt c (unesc rest) := by
  rw [unesc.eq_def]; simp [h1, h2, h8]

theorem unesc_escJ (l rest : List Char) :
    unesc (escJ l ++ '"' :: rest) = some (l, rest) := by
  induction l with
  | nil => rw [escJ, List.nil_append, unesc_quote]
  | cons c t ih =>
    rw [escJ, List.append_assoc]
    by_cases h1 : c = '"'
    · subst h1
      rw [show escChar '"' = ['\\', '"'] from rfl]
      simp only [List.cons_append, List.nil_append]
      rw [unesc_esc_quote, ih]; rfl
    by_cases h2 : c = '\\'
    · subst h2
      rw [show escChar '\\' = ['\\', '\\'] from rfl]
      simp only [List.cons_append, List.nil_append]
      rw [unesc_esc_bs, ih]; rfl
    by_cases h3 : c = '\x08'
    · subst h3
      rw [show escChar '\x08' = ['\\', 'b'] from rfl]
      simp only [List.cons_append, List.nil_append]
      rw [unesc_esc_b, ih]; rfl
    by_cases h4 : c = '\x0c'
    · subst h4
      rw [show escChar '\x0c' = ['\\', 'f'] from rfl]
      simp only [List.cons_append, List.nil_append]
      rw [unesc_esc_f, ih]; rfl
    by_cases h5 : c = '\n'
    · subst h5
      rw [show escChar '\n' = ['\\', 'n'] from rfl]
      simp only [List.cons_append, List.nil_append]
      rw [unesc_esc_n, ih]; rfl
    by_cases h6 : c = '\r'
    · subst h6
      rw [show escChar '\r' = ['\\', 'r'] from rfl]
      simp only [List.cons_append, List.nil_append]
      rw [unesc_esc_r, ih]; rfl
    by_cases h7 : c = '\t'
    · subst h7
      rw [show escChar '\t' = ['\\', 't'] from rfl]
      simp only [List.cons_append, List.nil_append]
      rw [unesc_esc_t, ih]; rfl
    by_cases h8 : c.toNat < 32
    · have he : escChar c
          = ['\\', 'u', '0', '0', hexDig (c.toNat / 16), hexDig (c.toNat % 16)] := by
        unfold escChar
        rw [if_neg h1, if_neg h2, if_neg h3, if_neg h4, if_neg h5, if_neg h6,
          if_neg h7, if_pos h8]
      have hdiv : c.toNat / 16 < 16 := by omega
      have hmod : c.toNat % 16 < 16 := by omega
      rw [he]
      simp only [List.cons_append, List.nil_append]
      rw [unesc_esc_u, show hexVal '0' = some 0 from rfl,
        hexVal_hexDig hdiv, hexVal_hexDig hmod]
      have hval : ((0 * 16 + 0) * 16 + c.toNat / 16) * 16 + c.toNat % 16 = c.toNat := by
        omega
      simp only [hval, Char.ofNat_toNat, ih, consOpt, Option.map]
    · have he : escChar c = [c] := by
        unfold escChar
        rw [if_neg h1, if_neg h2, if_neg h3, if_neg h4, if_neg h5, if_neg h6,
          if_neg h7, if_neg h8]
      rw [he, List.singleton_append, unesc_ord c _ h1 h2 h8, ih]
      rfl

theorem parseKV_chain (key v : String) (rest : List Char) :
    parseKV key (strLit key ++ ':' :: strLit v ++ rest) = some (v, rest) := by
  unfold parseKV
  have hs : strLit key ++ ':' :: strLit v ++ rest
      = (strLit key ++ [':', '"']) ++ (escJ v.data ++ '"' :: rest) := by
    simp [strLit, List.append_assoc]
  rw [hs, expectChars_append]
  simp [unesc_escJ, mk_data]

theorem strToStyle_styleKey (m : StyleMode) : strToStyle (styleKey m) = some m := by
  cases m <;> rfl

theorem parseBgJson_stringifyBg (s : BgSettings) :
    parseBgJson (stringifyBg s) = some s := by
  obtain ⟨p, b, o, sz, ps, rp, st⟩ := s
  cases st with
  | none =>
    simp only [parseBgJson, stringifyBg, data_mk, objChars, expectChars_single,
      parseKV_chain, List.isEmpty_nil]
    simp
  | some m =>
    simp only [parseBgJson, stringifyBg, data_mk, objChars, expectChars_single,
      parseKV_chain, List.isEmpty_nil, strToStyle_styleKey]
    simp

/-! ## Helper lemmas: the block processor and the observer callback -/

/-- A path resolver that finds nothing (a vault without the referenced
files); concrete instance of the getImgPath collaborator. -/
def noResolve : String → String → Option String := fun _ _ => none

/-- A path resolver mapping every reference to itself; concrete
instance of the getImgPath collaborator. -/
def resolveSelf : String → String → Option String := fun v _ => some v

theorem processBgBlock_of_empty_path {resolve : String → String → Option String}
    {source sourcePath : String}
    (h : (parseSettings resolve source sourcePath).path = "") :
    processBgBlock resolve source sourcePath
      = { markerDataset := none, infoText := none, blurSub := none,
          errorText := some "❌ No \"path:\" found in bg block",
          observed := false } := by
  unfold processBgBlock
  rw [if_neg (by simp [h])]

theorem processBgBlock_of_path {resolve : String → String → Option String}
    {source sourcePath : String}
    (h : (parseSettings resolve source sourcePath).path ≠ "") :
    processBgBlock resolve source sourcePath
      = { markerDataset := some (stringifyBg (parseSettings resolve source sourcePath)),
          infoText := some ("🖼 " ++ cleanNameOf (parseSettings resolve source sourcePath).path),
          blurSub :=
            if (parseSettings resolve source sourcePath).blur ≠ "0px"
            then some ("💧 Blur: " ++ (parseSettings resolve source sourcePath).blur)
            else none,
          errorText := none, observed := true } := by
  unfold processBgBlock
  rw [if_pos h]

theorem find?_append_first {l1 : List OEntry} {e : OEntry} (l2 : List OEntry)
    (h1 : ∀ x ∈ l1, x.isIntersecting = false) (he : e.isIntersecting = true) :
    (l1 ++ e :: l2).find? (fun x => x.isIntersecting) = some e := by
  induction l1 with
  | nil => simp [List.find?, he]
  | cons a t ih =>
    have ha : a.isIntersecting = false := h1 a (List.mem_cons_self a t)
    have ht : ∀ x ∈ t, x.isIntersecting = false :=
      fun x hx => h1 x (List.mem_cons_of_mem a hx)
    simp [List.find?, ha, ih ht]

theorem observerCallback_of_none_intersecting {entries : List OEntry}
    (h : ∀ e ∈ entries, e.isIntersecting = false) :
    observerCallback entries = none := by
  unfold observerCallback
  rw [List.find?_eq_none.mpr (by intro x hx; simp [h x hx])]

theorem observerCallback_first {l1 : List OEntry} {e : OEntry} (l2 : List OEntry)
    {j : String} (h1 : ∀ x ∈ l1, x.isIntersecting = false)
    (he : e.isIntersecting = true) (hj : e.settings = some j) :
    observerCallback (l1 ++ e :: l2) = parseBgJson j := by
  unfold observerCallback
  rw [find?_append_first l2 h1 he]
  simp only [hj]

theorem hasLayer_eq_false_of_countLayers_zero {l : List Node}
    (h : countLayers l = 0) : hasLayer l = false := by
  induction l with
  | nil => rfl
  | cons n t ih =>
    cases n with
    | layer st => simp [countLayers] at h
    | other i =>
      rw [countLayers] at h
      rw [hasLayer, ih h]

/-! ## Claims -/

/-- C1: for every parsed BlockConfig, every global default style and every
container state, applySettingsToActiveLeaf removes every catalog style class
from the container and then adds exactly the class of the effective style,
where the effective style is the block's own style field when it is set and
the global default otherwise: afterwards the catalog classes present on the
container are exactly the one class of the effective style. -/
theorem C1_apply_exactly_effective_style_class (cfg : BgSettings) (gm : StyleMode)
    (c : Container) :
    ((applySettingsToActiveLeaf cfg (styleKey gm) c).classes).filter
        (fun s => StyleManager.cssClasses.contains s)
      = [StyleManager.getClass (cfg.style.getD gm)] :=
  catalogFilter_apply cfg gm c

/-- C2 is refuted: the CSS class the catalog derives for the identifier frost
is bg-style-frost, not style-frost, and applying a frost-styled block under
global default glass does not put the class style-frost on the container. -/
theorem C2_counterexample :
    StyleManager.getClass StyleMode.frost ≠ "style-frost" ∧
    "style-frost" ∉ (applySettingsToActiveLeaf
      ⟨"a", "0px", "1", "cover", "center center", "no-repeat", some StyleMode.frost⟩
      (styleKey StyleMode.glass) ⟨[], []⟩).classes ∧
    "bg-style-frost" ∈ (applySettingsToActiveLeaf
      ⟨"a", "0px", "1", "cover", "center center", "no-repeat", some StyleMode.frost⟩
      (styleKey StyleMode.glass) ⟨[], []⟩).classes := by
  refine ⟨by decide, by decide, by decide⟩

/-- C2 (amended): the derived CSS class of every catalog identifier is
bg-style-<identifier>, and applying a block whose style is frost under global
default glass leaves class bg-style-frost present and bg-style-glass absent
on the container. -/
theorem C2_amended_derived_class_names (cfg : BgSettings) (c : Container)
    (h : cfg.style = some StyleMode.frost) :
    (∀ m : StyleMode, StyleManager.getClass m = "bg-style-" ++ styleKey m) ∧
    "bg-style-frost" ∈ (applySettingsToActiveLeaf cfg (styleKey StyleMode.glass) c).classes ∧
    "bg-style-glass" ∉ (applySettingsToActiveLeaf cfg (styleKey StyleMode.glass) c).classes := by
  refine ⟨fun m => rfl, ?_, ?_⟩
  · rw [apply_classes_catalog, h]
    exact List.mem_append_right _ (List.mem_singleton.mpr rfl)
  · intro hmem
    rw [apply_classes_catalog, h] at hmem
    rcases List.mem_append.mp hmem with hm | hm
    · exact absurd (mem_removeClasses.mp hm).2 (by decide)
    · rw [List.mem_singleton] at hm
      exact absurd hm (by decide)

/-- Witness for C2 (amended) at a concrete block and container. -/
theorem C2_amended_derived_class_names_witness :
    "bg-style-frost" ∈ (applySettingsToActiveLeaf
      ⟨"b.png", "2px", "1", "cover", "center center", "no-repeat", some StyleMode.frost⟩
      (styleKey StyleMode.glass) ⟨["bg-style-glass", "x"], [Node.other 3]⟩).classes ∧
    "bg-style-glass" ∉ (applySettingsToActiveLeaf
      ⟨"b.png", "2px", "1", "cover", "center center", "no-repeat", some StyleMode.frost⟩
      (styleKey StyleMode.glass) ⟨["bg-style-glass", "x"], [Node.other 3]⟩).classes :=
  ⟨(C2_amended_derived_class_names _ _ rfl).2.1,
   (C2_amended_derived_class_names _ _ rfl).2.2⟩

/-- C3 is refuted: loadSettings merges a stored styleMode over the default
with no validation, so an unrecognized stored identifier such as neon becomes
the plugin's styleMode verbatim (it does not fall back to glass), and
updateStyleClass then puts the derived class bg-style-neon on the body. -/
theorem C3_counterexample :
    (loadSettings (some ⟨some "neon"⟩)).styleMode = "neon" ∧
    StyleManager.isValid "neon" = false ∧
    (loadSettings (some ⟨some "neon"⟩)).styleMode ≠ DEFAULT_SETTINGS.styleMode ∧
    StyleManager.getClassStr "neon"
      ∈ updateStyleClass [] (loadSettings (some ⟨some "neon"⟩)).styleMode := by
  refine ⟨rfl, rfl, by decide, by decide⟩

/-- C3 (amended): loading merges the stored value over the default verbatim
and without validation; a stored styleMode string becomes the active global
style (its derived class is applied to the body by updateStyleClass), and the
fall back to the hard-coded default glass happens only when the store returns
nothing or an object without a styleMode field. -/
theorem C3_amended_load_merges_verbatim (s : String) (body : List String) :
    (loadSettings (some ⟨some s⟩)).styleMode = s ∧
    (loadSettings none).styleMode = "glass" ∧
    (loadSettings (some ⟨none⟩)).styleMode = "glass" ∧
    StyleManager.getClassStr s ∈ updateStyleClass body s := by
  refine ⟨rfl, rfl, rfl, ?_⟩
  unfold updateStyleClass
  exact mem_addClass.mpr (Or.inr rfl)

/-- C4: a line with key blur stores the trimmed value verbatim when it ends
in px or rem or equals exactly 0, and appends px otherwise; concretely 5
yields 5px, 5px yields 5px, 0 yields 0, 2rem yields 2rem. -/
theorem C4_blur_coercion :
    (∀ (resolve : String → String → Option String) (sp v : String), '\n' ∉ v.data →
      (parseSettings resolve ("blur: " ++ v) sp).blur
        = if jsEndsWith (jsTrim v) "px" = true ∨ jsEndsWith (jsTrim v) "rem" = true
             ∨ jsTrim v = "0"
          then jsTrim v else jsTrim v ++ "px") ∧
    (parseSettings noResolve "blur: 5" "").blur = "5px" ∧
    (parseSettings noResolve "blur: 5px" "").blur = "5px" ∧
    (parseSettings noResolve "blur: 0" "").blur = "0" ∧
    (parseSettings noResolve "blur: 2rem" "").blur = "2rem" := by
  refine ⟨?_, rfl, rfl, rfl, rfl⟩
  intro resolve sp v hv
  rw [parseSettings_blur resolve sp v hv]
  unfold coerceBlur
  by_cases hp : (jsEndsWith (jsTrim v) "px" || jsEndsWith (jsTrim v) "rem"
      || jsTrim v == "0") = true
  · rw [if_pos hp, if_pos (by simpa [Bool.or_eq_true, beq_iff_eq, or_assoc] using hp)]
  · rw [if_neg hp,
      if_neg (by simpa [Bool.or_eq_true, beq_iff_eq, not_or, and_assoc] using hp)]

/-- Witness for C4 at the concrete value 3. -/
theorem C4_blur_coercion_witness :
    (parseSettings resolveSelf ("blur: " ++ "3") "doc.md").blur
      = if jsEndsWith (jsTrim "3") "px" = true ∨ jsEndsWith (jsTrim "3") "rem" = true
           ∨ jsTrim "3" = "0"
        then jsTrim "3" else jsTrim "3" ++ "px" :=
  C4_blur_coercion.1 resolveSelf "doc.md" "3" (by decide)

/-- C5: a declarative block whose parsed imagePath is empty renders the
visible inline error annotation, creates no marker, registers nothing with
the visibility observer, and renders no info annotation, so such a
configuration is never applied to the DOM. -/
theorem C5_empty_path_renders_error (resolve : String → String → Option String)
    (source sp : String) (h : (parseSettings resolve source sp).path = "") :
    (processBgBlock resolve source sp).errorText
        = some "❌ No \"path:\" found in bg block" ∧
    (processBgBlock resolve source sp).markerDataset = none ∧
    (processBgBlock resolve source sp).observed = false ∧
    (processBgBlock resolve source sp).infoText = none ∧
    (processBgBlock resolve source sp).blurSub = none := by
  rw [processBgBlock_of_empty_path h]
  exact ⟨rfl, rfl, rfl, rfl, rfl⟩

/-- Witness for C5: a block whose path reference does not resolve. -/
theorem C5_empty_path_renders_error_witness :
    (processBgBlock noResolve "path: img.png" "n.md").errorText
        = some "❌ No \"path:\" found in bg block" ∧
    (processBgBlock noResolve "path: img.png" "n.md").markerDataset = none ∧
    (processBgBlock noResolve "path: img.png" "n.md").observed = false :=
  ⟨(C5_empty_path_renders_error noResolve "path: img.png" "n.md" rfl).1,
   (C5_empty_path_renders_error noResolve "path: img.png" "n.md" rfl).2.1,
   (C5_empty_path_renders_error noResolve "path: img.png" "n.md" rfl).2.2.1⟩

/-- C6: the intersection callback selects the first entry in delivery order
that is intersecting and applies its stored configuration; when no entry in
the batch is intersecting, no apply is triggered and the container state
persists unchanged. -/
theorem C6_first_intersecting_applied (g : String) (c : Container) :
    (∀ entries : List OEntry, (∀ e ∈ entries, e.isIntersecting = false) →
      observerStep g c entries = c) ∧
    (∀ (l1 : List OEntry) (e : OEntry) (l2 : List OEntry) (j : String)
        (cfg : BgSettings),
      (∀ x ∈ l1, x.isIntersecting = false) → e.isIntersecting = true →
      e.settings = some j → parseBgJson j = some cfg →
      observerStep g c (l1 ++ e :: l2) = applySettingsToActiveLeaf cfg g c) := by
  constructor
  · intro entries h
    unfold observerStep
    rw [observerCallback_of_none_intersecting h]
  · intro l1 e l2 j cfg h1 he hj hp
    unfold observerStep
    rw [observerCallback_first l2 h1 he hj, hp]

/-- A concrete block configuration used by the C6 witness. -/
def sampleCfg : BgSettings :=
  ⟨"img.png", "4px", "0.5", "cover", "top", "repeat-x", some StyleMode.crisp⟩

/-- Witness for C6: a batch with no intersecting entry leaves the container
unchanged, and a batch whose second entry is the first intersecting one
applies that entry's stored configuration. -/
theorem C6_first_intersecting_applied_witness :
    observerStep "glass" ⟨[], []⟩ [⟨false, none⟩] = ⟨[], []⟩ ∧
    observerStep "glass" ⟨[], []⟩
        ([⟨false, none⟩] ++ (⟨true, some (stringifyBg sampleCfg)⟩ : OEntry)
          :: [⟨true, some "zzz"⟩])
      = applySettingsToActiveLeaf sampleCfg "glass" ⟨[], []⟩ :=
  ⟨(C6_first_intersecting_applied "glass" ⟨[], []⟩).1 _ (by decide),
   (C6_first_intersecting_applied "glass" ⟨[], []⟩).2 [⟨false, none⟩]
     ⟨true, some (stringifyBg sampleCfg)⟩ [⟨true, some "zzz"⟩]
     (stringifyBg sampleCfg) sampleCfg (by decide) rfl rfl
     (parseBgJson_stringifyBg sampleCfg)⟩

/-- C7: applySettingsToActiveLeaf is idempotent: applying the identical
configuration twice produces the identical container state as applying it
once, and after an apply exactly one catalog style class is present. -/
theorem C7_apply_idempotent (cfg : BgSettings) (gm : StyleMode) (c : Container) :
    applySettingsToActiveLeaf cfg (styleKey gm)
        (applySettingsToActiveLeaf cfg (styleKey gm) c)
      = applySettingsToActiveLeaf cfg (styleKey gm) c ∧
    ((applySettingsToActiveLeaf cfg (styleKey gm) c).classes).filter
        (fun s => StyleManager.cssClasses.contains s)
      = [StyleManager.getClass (cfg.style.getD gm)] :=
  ⟨container_eq_of_fields (apply_apply_classes cfg gm c)
      (apply_apply_children cfg (styleKey gm) c),
   catalogFilter_apply cfg gm c⟩

/-- C8 is refuted: for the block with lines path: a.png and blur: 0 the
parsed blur is the string 0 — a blur of zero — yet the rendered info
annotation does include a blur sub-line. -/
theorem C8_counterexample :
    specBlurIsZero (parseSettings resolveSelf "path: a.png\nblur: 0" "n.md").blur
        = true ∧
    (processBgBlock resolveSelf "path: a.png\nblur: 0" "n.md").blurSub
        = some "💧 Blur: 0" :=
  ⟨rfl, rfl⟩

/-- C8 (amended): for every rendered block with non-empty imagePath, the info
annotation shows the image name, and the blur sub-line is present if and only
if the parsed blur string differs from the literal 0px (so the default and an
explicit 0px produce no sub-line, while a zero written as 0 or 0rem does
produce one). -/
theorem C8_amended_blur_subline (resolve : String → String → Option String)
    (source sp : String) (h : (parseSettings resolve source sp).path ≠ "") :
    (processBgBlock resolve source sp).infoText
        = some ("🖼 " ++ cleanNameOf (parseSettings resolve source sp).path) ∧
    ((processBgBlock resolve source sp).blurSub ≠ none
      ↔ (parseSettings resolve source sp).blur ≠ "0px") := by
  rw [processBgBlock_of_path h]
  refine ⟨rfl, ?_⟩
  by_cases hb : (parseSettings resolve source sp).blur ≠ "0px"
  · simp [hb]
  · simp [hb]

/-- Witness for C8 (amended) at a concrete block. -/
theorem C8_amended_blur_subline_witness :
    (processBgBlock resolveSelf "path: b.png\nblur: 2" "n.md").blurSub ≠ none
      ↔ (parseSettings resolveSelf "path: b.png\nblur: 2" "n.md").blur ≠ "0px" :=
  (C8_amended_blur_subline resolveSelf "path: b.png\nblur: 2" "n.md" (by decide)).2

/-- C9: serializing a BlockConfig with JSON.stringify onto the marker and
parsing it back with JSON.parse in the intersection callback is a lossless
round-trip: the configuration retrieved equals the stored one field for
field. -/
theorem C9_marker_json_roundtrip (cfg : BgSettings) :
    parseBgJson (stringifyBg cfg) = some cfg :=
  parseBgJson_stringifyBg cfg

/-- C10: starting from a container with no background layer, any sequence of
apply and reset operations leaves at most one background-layer element in the
container; moreover apply creates a layer only when none exists, prepending
it as first child. -/
theorem C10_at_most_one_layer (ops : List Op) (c : Container)
    (h : countLayers c.children = 0) :
    countLayers ((ops.foldl stepOp c)).children ≤ 1 ∧
    (∀ (cfg : BgSettings) (g : String),
      (applySettingsToActiveLeaf cfg g c).children
        = Node.layer (mkLayerStyle cfg) :: c.children) := by
  constructor
  · exact foldl_stepOp_layer_invariant ops (by omega)
  · intro cfg g
    rw [apply_children,
      if_neg (by rw [hasLayer_eq_false_of_countLayers_zero h]; exact Bool.false_ne_true)]

/-- Witness for C10 on a concrete operation sequence. -/
theorem C10_at_most_one_layer_witness :
    countLayers ((([Op.applyOp defaultBg "glass", Op.resetOp,
        Op.applyOp defaultBg "mist"]).foldl stepOp ⟨[], [Node.other 7]⟩)).children ≤ 1 :=
  (C10_at_most_one_layer
    [Op.applyOp defaultBg "glass", Op.resetOp, Op.applyOp defaultBg "mist"]
    ⟨[], [Node.other 7]⟩ rfl).1

end BK
